import Mathlib

/-!
Shallow embedding of the webcc/csoap HTTP transport core, covering

* `src/csoap/rest_server.cc`  — REST route registry and request dispatcher
  (`RestServiceManager::AddService`, `RestServiceManager::GetService`,
  `RestRequestHandler::HandleSession`), and
* `webcc/http_client_base.cc` — the client request engine
  (`HttpClientBase::Request`, `DoConnect`, `SendReqeust`, `ReadResponse`,
  `DoReadResponse`, `OnDeadline`, `Stop`).

External collaborators (std::regex, the URL utility, the HTTP session, the
wire parser, the socket layer) are abstracted exactly at the boundary the
code uses them.
-/

set_option autoImplicit false

namespace Csoap

/-- Abstraction of the regex collaborator (`std::regex` compiled with
`ECMAScript | icase` flags). `compile` models `std::regex::assign`, which
either yields a compiled regex or throws `std::regex_error` (`none`).
`fullMatch` models `std::regex_match(url, match, regex)`: on a full match it
yields the `std::smatch` contents as a list of strings whose element 0 is the
whole matched string and whose elements 1.. are the capturing sub-expressions
in left-to-right order; `none` means the whole-string match failed. -/
structure RegexEngine where
  Regex : Type
  compile : String → Option Regex
  fullMatch : Regex → String → Option (List String)

/-- One entry of the registry: `ServiceItem` from `rest_server.h`, holding the
service (handler) pointer, the source pattern text, and the compiled regex. -/
structure ServiceItem (α : Type) (E : RegexEngine) where
  service : α
  url : String
  url_regex : E.Regex

/-- `RestServiceManager`: the ordered sequence `service_items_`. -/
structure RestServiceManager (α : Type) (E : RegexEngine) where
  service_items : List (ServiceItem α E)

/-- `RestServiceManager::AddService`: compile the pattern; on success append
the item to `service_items_` and return `true`; if compilation throws
`std::regex_error`, return `false` with the registry untouched. -/
def RestServiceManager.AddService {α : Type} {E : RegexEngine}
    (m : RestServiceManager α E) (service : α) (url : String) :
    Bool × RestServiceManager α E :=
  match E.compile url with
  | some r => (true, ⟨m.service_items ++ [⟨service, url, r⟩]⟩)
  | none => (false, m)

/-- Loop body of `RestServiceManager::GetService`: scan the items in order;
for the first item whose regex fully matches `url`, push `match[1..]` (the
sub-matches, excluding `match[0]`, the whole string) onto `sub_matches` and
return its service; if no item matches, return the null service pointer with
`sub_matches` untouched. -/
def GetServiceAux {α : Type} {E : RegexEngine} (url : String)
    (sub_matches : List String) :
    List (ServiceItem α E) → Option α × List String
  | [] => (none, sub_matches)
  | item :: rest =>
    match E.fullMatch item.url_regex url with
    | some m => (some item.service, sub_matches ++ m.drop 1)
    | none => GetServiceAux url sub_matches rest

/-- `RestServiceManager::GetService(url, sub_matches*)`, with the in-out
vector made explicit: takes the vector's current contents and returns the
service (or `none`) together with the vector's final contents. -/
def RestServiceManager.GetService {α : Type} {E : RegexEngine}
    (m : RestServiceManager α E) (url : String) (sub_matches : List String) :
    Option α × List String :=
  GetServiceAux url sub_matches m.service_items

/-- A REST service: `RestService::Handle(method, content, *content_out)`
returns a success flag and writes the response content. `HandleSession`
ignores the flag (`// TODO: Error handling`). -/
structure RestService where
  Handle : String → String → Bool × String

/-- `RestRequestHandler`: owns one `RestServiceManager`. -/
structure RestRequestHandler (E : RegexEngine) where
  service_manager : RestServiceManager RestService E

/-- Result of the URL utility collaborator: validity flag plus path
component (`Url::IsValid()`, `Url::path()`). -/
structure Url where
  valid : Bool
  path : String

/-- The two `HttpStatus::Enum` values `HandleSession` produces. -/
inductive HttpStatus where
  | kOK
  | kBadRequest
  deriving DecidableEq, Repr

/-- Numeric HTTP status code of each `HttpStatus::Enum` value. -/
def HttpStatus.code : HttpStatus → Nat
  | .kOK => 200
  | .kBadRequest => 400

/-- Modelled from the spec: the constant `kTextJsonUtf8` (declared in a csoap
header that is not part of the excerpt) — "a JSON-over-UTF-8 content type". -/
def kTextJsonUtf8 : String := "application/json; charset=utf-8"

/-- The inbound request exposed by the session collaborator:
`request().url()`, `request().method()`, `request().content()`. -/
structure SessionRequest where
  url : String
  method : String
  content : String

/-- One side effect performed on the session collaborator. -/
inductive SessionEvent where
  | setStatus (status : HttpStatus)
  | setContent (content_type : String) (length : Nat) (body : String)
  | send
  deriving DecidableEq, Repr

/-- Whether a session event is the `SendResponse()` signal. -/
def SessionEvent.isSend : SessionEvent → Bool
  | .send => true
  | _ => false

/-- Whether a session event is a `SetResponseStatus(...)` write. -/
def SessionEvent.isSetStatus : SessionEvent → Bool
  | .setStatus _ => true
  | _ => false

/-- `RestRequestHandler::HandleSession`, parameterised by the URL-utility
collaborator `parseUrl`. Returns the `HttpStatus` result together with the
ordered list of side effects performed on the session. -/
def HandleSession {E : RegexEngine} (parseUrl : String → Url)
    (h : RestRequestHandler E) (req : SessionRequest) :
    HttpStatus × List SessionEvent :=
  let url := parseUrl req.url
  if !url.valid then
    (.kBadRequest, [.setStatus .kBadRequest, .send])
  else
    let found := h.service_manager.GetService url.path []
    match found.1 with
    | none => (.kBadRequest, [.setStatus .kBadRequest, .send])
    | some service =>
      let content := (service.Handle req.method req.content).2
      (.kOK, [.setStatus .kOK,
              .setContent kTextJsonUtf8 content.length content, .send])

end Csoap

namespace Webcc

/-- The `Error` enumeration of the client engine (webcc). -/
inductive Error where
  | kNoError
  | kHostResolveError
  | kEndpointConnectError
  | kSocketWriteError
  | kSocketReadError
  | kHttpError
  deriving DecidableEq, Repr

/-- Ghost marker for the three phases of `HttpClientBase::Request`,
recorded in the order the corresponding member functions are entered. -/
inductive Phase where
  | connect
  | send
  | read
  deriving DecidableEq, Repr

/-- One completion dispatched by `io_context_.run_one()` during the read
phase. `deadlinePassed` is a run of `OnDeadline` whose expiry time has
passed; `deadlineSpurious` is a run of `OnDeadline` whose expiry has not
passed (it re-arms the wait). `readDone err len parseOk finished` is a run
of the async-read handler: `err` is the socket error flag, `len` the number
of bytes read, and `parseOk` / `finished` the wire parser's answers for this
chunk (the parser is an external collaborator, so its verdicts are part of
the environment). -/
inductive IoEvent where
  | deadlinePassed
  | deadlineSpurious
  | readDone (err : Bool) (len : Nat) (parseOk : Bool) (finished : Bool)
  deriving DecidableEq, Repr

/-- Observable state of `HttpClientBase`. `buffer_size` is the size of
`buffer_`; `response` records the chunk lengths fed to the response parser
(the response accumulator; `[]` means freshly reset); `socket_open`,
`close_count` and `cancel_count` track the socket and the deadline timer
(`SocketClose` / `deadline_.cancel()` invocation counts); `phases` is the
ghost phase log of the current `Request` call. -/
structure HttpClientBase where
  buffer_size : Nat
  stopped : Bool
  timed_out : Bool
  error : Error
  response : List Nat
  socket_open : Bool
  close_count : Nat
  cancel_count : Nat
  phases : List Phase
  deriving DecidableEq, Repr

/-- `HttpClientBase::Stop`: if already stopped, return immediately;
otherwise set the stop flag, close the socket (`SocketClose`) and cancel the
deadline timer (`deadline_.cancel()`). -/
def HttpClientBase.Stop (s : HttpClientBase) : HttpClientBase :=
  if s.stopped then s
  else { s with stopped := true, socket_open := false,
                close_count := s.close_count + 1,
                cancel_count := s.cancel_count + 1 }

/-- `HttpClientBase::OnDeadline`: if already stopped, return; if the expiry
time has passed, mark timed-out and `Stop()`; otherwise put the actor back
to sleep (`DoWaitDeadline`), which changes no observable state. -/
def HttpClientBase.OnDeadline (s : HttpClientBase) (expiryPassed : Bool) :
    HttpClientBase :=
  if s.stopped then s
  else if expiryPassed then HttpClientBase.Stop { s with timed_out := true }
  else s

/-- Per-call environment: outcomes of the resolver, the connect, the write,
and the stream of completions the io context dispatches during the read
phase. -/
structure ClientEnv where
  resolve_ok : Bool
  connect_ok : Bool
  write_ok : Bool
  events : List IoEvent

/-- The read-phase drive loop of `DoReadResponse`: issue an async read, then
`run_one()` in a loop; deadline completions are processed and the loop keeps
waiting, while a read completion runs the read handler, which either reaches
a terminal outcome (read error or zero bytes → `Stop`, `kSocketReadError`;
parse failure → `Stop`, `kHttpError`; parser finished → `Stop`, no error) or
recursively continues reading. A read completing after the socket was closed
by `Stop` reports an error (`boost::asio::error::operation_aborted`), which
the model encodes as `err || !s.socket_open`. Each successfully read chunk
is fed to the parser (`response` accumulates `min len buffer_size`, since a
read deposits at most `buffer_.size()` bytes). Returns `none` if the event
stream ends before a terminal outcome (the loop would still be blocked). -/
def driveRead (s : HttpClientBase) (error : Error) :
    List IoEvent → Option (HttpClientBase × Error × List IoEvent)
  | [] => none
  | .deadlinePassed :: rest => driveRead (s.OnDeadline true) error rest
  | .deadlineSpurious :: rest => driveRead (s.OnDeadline false) error rest
  | .readDone err len parseOk finished :: rest =>
    if err || !s.socket_open || len == 0 then
      some (s.Stop, Error.kSocketReadError, rest)
    else if !parseOk then
      some (HttpClientBase.Stop
        { s with response := s.response ++ [min len s.buffer_size] },
        Error.kHttpError, rest)
    else if finished then
      some (HttpClientBase.Stop
        { s with response := s.response ++ [min len s.buffer_size] },
        Error.kNoError, rest)
    else if !s.stopped then
      driveRead { s with response := s.response ++ [min len s.buffer_size] }
        error rest
    else
      some ({ s with response := s.response ++ [min len s.buffer_size] },
        error, rest)

/-- `HttpClientBase::ReadResponse`: arm the deadline timer
(`expires_from_now` + `DoWaitDeadline`) and drive `DoReadResponse` with a
local error initialised to `kNoError`. -/
def ReadResponse (s : HttpClientBase) (events : List IoEvent) :
    Option (HttpClientBase × Error) :=
  let s := { s with phases := s.phases ++ [Phase.read] }
  match driveRead s Error.kNoError events with
  | some (s', e, _) => some (s', e)
  | none => none

/-- `HttpClientBase::DoConnect`: resolve the host (failure →
`kHostResolveError`, without `Stop`), then `SocketConnect` (failure →
`Stop()` and `kEndpointConnectError`; success opens the socket). -/
def DoConnect (s : HttpClientBase) (env : ClientEnv) :
    HttpClientBase × Error :=
  let s := { s with phases := s.phases ++ [Phase.connect] }
  if !env.resolve_ok then (s, Error.kHostResolveError)
  else if !env.connect_ok then (s.Stop, Error.kEndpointConnectError)
  else ({ s with socket_open := true }, Error.kNoError)

/-- `HttpClientBase::SendReqeust` (sic): `SocketWrite` the rendered request;
failure → `Stop()` and `kSocketWriteError`. -/
def SendReqeust (s : HttpClientBase) (env : ClientEnv) :
    HttpClientBase × Error :=
  let s := { s with phases := s.phases ++ [Phase.send] }
  if !env.write_ok then (s.Stop, Error.kSocketWriteError)
  else (s, Error.kNoError)

/-- The reset prologue of `HttpClientBase::Request`:
`io_context_.restart()`, fresh response object and fresh response parser
(`response := []`), `stopped_ = false`, `timed_out_ = false`,
`error_ = kNoError`. The ghost phase log is cleared for the new call. -/
def requestReset (s : HttpClientBase) : HttpClientBase :=
  { s with stopped := false, timed_out := false, error := Error.kNoError,
           response := [], phases := [] }

/-- Modelled from the spec: `BufferResizer` (declared in
`http_client_base.h`, which is not part of the excerpt) — "resizes the
working buffer if an override is given". A zero override leaves the buffer
alone. -/
def bufferResize (s : HttpClientBase) (n : Nat) : HttpClientBase :=
  if n ≠ 0 then { s with buffer_size := n } else s

/-- Modelled from the spec: the destructor half of `BufferResizer` —
"restored afterward — scoped resize": on every exit path of `Request` the
buffer regains its size from before the call. -/
def bufferRestore (s : HttpClientBase) (saved : Nat) : HttpClientBase :=
  { s with buffer_size := saved }

/-- `HttpClientBase::Request`: reset per-invocation state, apply the scoped
buffer resize, then run Connect, SendReqeust and ReadResponse in order,
assigning each phase's result to `error_` and returning `false` at the
first failure; returns `true` when all three phases report `kNoError`.
Returns `none` only when the read phase's event stream is exhausted before
a terminal outcome (in the source, `Request` would still be blocked inside
`run_one()`). -/
def Request (s0 : HttpClientBase) (buffer_size : Nat) (env : ClientEnv) :
    Option (Bool × HttpClientBase) :=
  let saved := s0.buffer_size
  let s1 := bufferResize (requestReset s0) buffer_size
  let c := DoConnect s1 env
  let s2 := { c.1 with error := c.2 }
  if c.2 ≠ Error.kNoError then some (false, bufferRestore s2 saved)
  else
    let w := SendReqeust s2 env
    let s3 := { w.1 with error := w.2 }
    if w.2 ≠ Error.kNoError then some (false, bufferRestore s3 saved)
    else
      match ReadResponse s3 env.events with
      | none => none
      | some (s4, e3) =>
        let s5 := { s4 with error := e3 }
        if e3 ≠ Error.kNoError then some (false, bufferRestore s5 saved)
        else some (true, bufferRestore s5 saved)

end Webcc

namespace Csoap

/-! Concrete fixtures used to instantiate the theorems on closed inputs. -/

/-- A tiny concrete instance of the regex collaborator: a "pattern" is its
own text plus a fixed capture list; it fully matches exactly the string
equal to its text; the single pattern `"("` fails to compile. -/
def TestEngine : RegexEngine where
  Regex := String × List String
  compile u := if u = "(" then none else some (u, ["42"])
  fullMatch r s := if r.1 = s then some (s :: r.2) else none

/-- A registered entry for pattern `"b"` with service number 10. -/
def itemB : ServiceItem Nat TestEngine := ⟨10, "b", ("b", ["42"])⟩

/-- A registered entry for pattern `"a"` with service number 7. -/
def itemA : ServiceItem Nat TestEngine := ⟨7, "a", ("a", ["42"])⟩

/-- A registry holding only `itemB`. -/
def testMgrB : RestServiceManager Nat TestEngine := ⟨[itemB]⟩

/-- A concrete REST service echoing method and body. -/
def testService : RestService := ⟨fun method content => (true, method ++ content)⟩

/-- A request handler whose registry routes path `"a"` to `testService`. -/
def testHandler : RestRequestHandler TestEngine :=
  ⟨⟨[⟨testService, "a", ("a", ["42"])⟩]⟩⟩

/-- A request handler with an empty registry. -/
def emptyHandler : RestRequestHandler TestEngine := ⟨⟨[]⟩⟩

/-- A concrete URL utility: the string `"good"` is valid with path `"a"`,
everything else is invalid. -/
def testParseUrl (s : String) : Url :=
  if s = "good" then ⟨true, "a"⟩ else ⟨false, ""⟩

end Csoap

namespace Webcc

/-- A concrete engine state before a `Request` call. -/
def testState : HttpClientBase :=
  { buffer_size := 8, stopped := false, timed_out := false,
    error := Error.kNoError, response := [], socket_open := false,
    close_count := 0, cancel_count := 0, phases := [] }

/-- An environment in which every phase succeeds and the peer answers with
one complete, well-formed chunk of 3 bytes. -/
def envOneChunk : ClientEnv :=
  { resolve_ok := true, connect_ok := true, write_ok := true,
    events := [IoEvent.readDone false 3 true true] }

/-- An environment in which the peer never responds: the deadline fires,
then the cancelled read completes. -/
def envNoAnswer : ClientEnv :=
  { resolve_ok := true, connect_ok := true, write_ok := true,
    events := [IoEvent.deadlinePassed, IoEvent.readDone false 0 true false] }

/-- An environment whose host resolution fails. -/
def envBadHost : ClientEnv :=
  { resolve_ok := false, connect_ok := true, write_ok := true, events := [] }

/-- The invariant maintained by the engine state throughout the read phase:
the socket is open exactly while the engine is not stopped, and within one
read phase the stop flag can only have been set by the deadline path, so it
coincides with the timed-out flag. -/
def ReadInv (s : HttpClientBase) : Prop :=
  s.stopped = !s.socket_open ∧ s.stopped = s.timed_out

/-- The state `Request testState 4 envOneChunk` ends in: one 3-byte chunk
parsed, clean stop, buffer restored to 8. -/
def testFinal : HttpClientBase :=
  { buffer_size := 8, stopped := true, timed_out := false,
    error := Error.kNoError, response := [3], socket_open := false,
    close_count := 1, cancel_count := 1,
    phases := [Phase.connect, Phase.send, Phase.read] }

/-- The state `Request testState 0 envBadHost` ends in: resolution failed
before any socket activity. -/
def badHostFinal : HttpClientBase :=
  { buffer_size := 8, stopped := false, timed_out := false,
    error := Error.kHostResolveError, response := [], socket_open := false,
    close_count := 0, cancel_count := 0, phases := [Phase.connect] }

/-- The state `Request testState 0 envNoAnswer` ends in: deadline fired,
teardown ran once, the cancelled read reported a read error. -/
def noAnswerFinal : HttpClientBase :=
  { buffer_size := 8, stopped := true, timed_out := true,
    error := Error.kSocketReadError, response := [], socket_open := false,
    close_count := 1, cancel_count := 1,
    phases := [Phase.connect, Phase.send, Phase.read] }

/-- A stopped engine state, for exercising `Stop` idempotence. -/
def stoppedState : HttpClientBase :=
  { buffer_size := 8, stopped := true, timed_out := true,
    error := Error.kSocketReadError, response := [], socket_open := false,
    close_count := 1, cancel_count := 1, phases := [] }

/-- The engine state at the start of the read phase of a `Request` call that
resolved, connected and wrote successfully: per-invocation state reset, the
buffer resized when an override is given, the socket open, and all three
phase entries logged. -/
def readPhaseState (s0 : HttpClientBase) (n : Nat) : HttpClientBase :=
  { buffer_size := if n = 0 then s0.buffer_size else n,
    stopped := false, timed_out := false, error := Error.kNoError,
    response := [], socket_open := true, close_count := s0.close_count,
    cancel_count := s0.cancel_count,
    phases := [Phase.connect, Phase.send, Phase.read] }

end Webcc

namespace Csoap

/-! Helper lemmas about the route registry scan. -/

/-- Entries whose pattern does not match are skipped without any effect. -/
theorem getServiceAux_append {α : Type} {E : RegexEngine} (url : String)
    (subs : List String) (l1 l2 : List (ServiceItem α E))
    (h : ∀ it ∈ l1, E.fullMatch it.url_regex url = none) :
    GetServiceAux url subs (l1 ++ l2) = GetServiceAux url subs l2 := by
  induction l1 with
  | nil => rfl
  | cons a l ih =>
    have ha : E.fullMatch a.url_regex url = none := h a (by simp)
    simp only [List.cons_append, GetServiceAux, ha]
    exact ih fun it hit => h it (by simp [hit])

/-- If no entry matches, the scan returns the null service and leaves the
sub-match vector untouched. -/
theorem getServiceAux_no_match {α : Type} {E : RegexEngine} (url : String)
    (subs : List String) (l : List (ServiceItem α E))
    (h : ∀ it ∈ l, E.fullMatch it.url_regex url = none) :
    GetServiceAux url subs l = (none, subs) := by
  induction l with
  | nil => rfl
  | cons a l ih =>
    have ha : E.fullMatch a.url_regex url = none := h a (by simp)
    simp only [GetServiceAux, ha]
    exact ih fun it hit => h it (by simp [hit])

/-- A matching head entry is returned at once, appending its sub-matches
(group 0 excluded). -/
theorem getServiceAux_head_match {α : Type} {E : RegexEngine} (url : String)
    (subs : List String) (item : ServiceItem α E)
    (rest : List (ServiceItem α E)) (g : List String)
    (h : E.fullMatch item.url_regex url = some g) :
    GetServiceAux url subs (item :: rest) =
      (some item.service, subs ++ g.drop 1) := by
  simp only [GetServiceAux, h]

/-- `AddService` on a pattern that compiles appends one entry. -/
theorem addService_compiles {α : Type} {E : RegexEngine}
    (m : RestServiceManager α E) (service : α) (url : String) (r : E.Regex)
    (h : E.compile url = some r) :
    m.AddService service url =
      (true, ⟨m.service_items ++ [⟨service, url, r⟩]⟩) := by
  simp only [RestServiceManager.AddService, h]

/-- The full-match scan positioned at the first matching entry. -/
theorem getService_first_match {α : Type} {E : RegexEngine}
    (pre post : List (ServiceItem α E)) (item : ServiceItem α E)
    (p : String) (g : List String) (subs : List String)
    (hpre : ∀ it ∈ pre, E.fullMatch it.url_regex p = none)
    (hit : E.fullMatch item.url_regex p = some g) :
    (RestServiceManager.mk (pre ++ item :: post)).GetService p subs =
      (some item.service, subs ++ g.drop 1) := by
  unfold RestServiceManager.GetService
  rw [getServiceAux_append p subs pre (item :: post) hpre]
  exact getServiceAux_head_match p subs item post g hit

/-- C1: if two or more registered patterns fully match the path, `GetService`
returns the handler of the entry registered first: with every pre-existing
entry failing to match, registering pattern `u1` (matching `p`) and then
pattern `u2` (of arbitrary specificity, possibly also matching `p`) makes
`GetService p` return the first handler `s1`. -/
theorem c1_first_registered_wins {α : Type} {E : RegexEngine}
    (m0 : RestServiceManager α E) (s1 s2 : α) (u1 u2 : String)
    (r1 r2 : E.Regex) (p : String) (g1 : List String) (subs : List String)
    (hc1 : E.compile u1 = some r1) (hc2 : E.compile u2 = some r2)
    (hm0 : ∀ it ∈ m0.service_items, E.fullMatch it.url_regex p = none)
    (hm1 : E.fullMatch r1 p = some g1) :
    (((m0.AddService s1 u1).2.AddService s2 u2).2.GetService p subs).1 =
      some s1 := by
  rw [addService_compiles m0 s1 u1 r1 hc1]
  rw [addService_compiles _ s2 u2 r2 hc2]
  have : m0.service_items ++ [⟨s1, u1, r1⟩] ++ [⟨s2, u2, r2⟩] =
      m0.service_items ++ (⟨s1, u1, r1⟩ : ServiceItem α E) :: [⟨s2, u2, r2⟩] := by
    simp
  rw [this]
  rw [getService_first_match m0.service_items [⟨s2, u2, r2⟩] ⟨s1, u1, r1⟩
        p g1 subs hm0 hm1]

/-- C1 witness: registry `[pattern "b" ↦ 10]`; registering `"a" ↦ 1` then
`"a" ↦ 2` (both fully match path `"a"`) and matching `"a"` returns 1. -/
theorem c1_witness :
    (((testMgrB.AddService 1 "a").2.AddService 2 "a").2.GetService "a" []).1 =
      some 1 :=
  c1_first_registered_wins testMgrB 1 2 "a" "a" ("a", ["42"]) ("a", ["42"])
    "a" ["a", "42"] [] rfl rfl
    (by
      intro it hit
      have h : it = itemB := List.mem_singleton.mp hit
      subst h
      rfl)
    rfl

/-- C3: `AddService` with a pattern that fails to compile returns `false`,
leaves the registry unchanged, and every subsequent `GetService` behaves
exactly as before the failed registration. -/
theorem c3_invalid_pattern_unchanged {α : Type} {E : RegexEngine}
    (m : RestServiceManager α E) (service : α) (url : String)
    (h : E.compile url = none) :
    m.AddService service url = (false, m) ∧
      ∀ p subs, (m.AddService service url).2.GetService p subs =
        m.GetService p subs := by
  have hadd : m.AddService service url = (false, m) := by
    simp only [RestServiceManager.AddService, h]
  exact ⟨hadd, fun p subs => by rw [hadd]⟩

/-- C3 witness: registering the invalid pattern `"("` into the registry
`[pattern "b" ↦ 10]` fails and a subsequent match of `"b"` still succeeds. -/
theorem c3_witness :
    testMgrB.AddService 11 "(" = (false, testMgrB) ∧
      (testMgrB.AddService 11 "(").2.GetService "b" [] =
        testMgrB.GetService "b" [] :=
  ⟨(c3_invalid_pattern_unchanged testMgrB 11 "(" rfl).1,
   (c3_invalid_pattern_unchanged testMgrB 11 "(" rfl).2 "b" []⟩

/-- C4: when the path fully matches a registered pattern, `GetService`
returns the first matching entry's handler and appends that pattern's
capturing sub-expressions in order with group 0 excluded; when no entry
matches, it returns the null service pointer. -/
theorem c4_match_result {α : Type} {E : RegexEngine} :
    (∀ (pre post : List (ServiceItem α E)) (item : ServiceItem α E)
        (p : String) (g : List String) (subs : List String),
      (∀ it ∈ pre, E.fullMatch it.url_regex p = none) →
      E.fullMatch item.url_regex p = some g →
      (RestServiceManager.mk (pre ++ item :: post)).GetService p subs =
        (some item.service, subs ++ g.drop 1)) ∧
    (∀ (m : RestServiceManager α E) (p : String) (subs : List String),
      (∀ it ∈ m.service_items, E.fullMatch it.url_regex p = none) →
      (m.GetService p subs).1 = none) := by
  constructor
  · exact fun pre post item p g subs hpre hit =>
      getService_first_match pre post item p g subs hpre hit
  · intro m p subs h
    unfold RestServiceManager.GetService
    rw [getServiceAux_no_match p subs m.service_items h]

/-- C4 witness: in the registry `[pattern "b" ↦ 10, pattern "a" ↦ 7]`,
matching `"a"` skips the first entry, returns handler 7 and appends the
capture `"42"` (group 0, the whole match `"a"`, excluded); matching `"z"`
returns the null pointer. -/
theorem c4_witness :
    (RestServiceManager.mk [itemB, itemA]).GetService "a" ["x"] =
        (some 7, ["x", "42"]) ∧
      ((RestServiceManager.mk [itemB, itemA] : RestServiceManager Nat TestEngine).GetService
        "z" []).1 = none := by
  constructor
  · have := (c4_match_result (α := Nat) (E := TestEngine)).1 [itemB] []
      itemA "a" ["a", "42"] ["x"]
      (by
        intro it hit
        have h : it = itemB := List.mem_singleton.mp hit
        subst h
        rfl)
      rfl
    simpa [itemA] using this
  · exact (c4_match_result (α := Nat) (E := TestEngine)).2
      ⟨[itemB, itemA]⟩ "z" []
      (by
        intro it hit
        rcases List.mem_cons.mp hit with h | h
        · subst h; rfl
        · have h2 : it = itemA := List.mem_singleton.mp h
          subst h2; rfl)

/-- C10: when no registered pattern fully matches the path, the
caller-supplied sub-match vector comes back completely unchanged; when an
entry matches, captures are appended for that single entry only (the
pre-existing non-matching entries contribute nothing). -/
theorem c10_submatch_frame {α : Type} {E : RegexEngine} :
    (∀ (m : RestServiceManager α E) (p : String) (subs : List String),
      (∀ it ∈ m.service_items, E.fullMatch it.url_regex p = none) →
      m.GetService p subs = (none, subs)) ∧
    (∀ (pre post : List (ServiceItem α E)) (item : ServiceItem α E)
        (p : String) (g : List String) (subs : List String),
      (∀ it ∈ pre, E.fullMatch it.url_regex p = none) →
      E.fullMatch item.url_regex p = some g →
      ((RestServiceManager.mk (pre ++ item :: post)).GetService p subs).2 =
        subs ++ g.drop 1) := by
  constructor
  · intro m p subs h
    unfold RestServiceManager.GetService
    exact getServiceAux_no_match p subs m.service_items h
  · intro pre post item p g subs hpre hit
    rw [getService_first_match pre post item p g subs hpre hit]

/-- C2: `HandleSession` yields status 400 when the target fails the URL
validity check (performing no registry lookup: the outcome is the same for
every handler/registry), yields 400 when the URL is valid but no route
matches its path, and otherwise yields 200 with the JSON/UTF-8 content type
and the handler's output as body; in every case it writes exactly one status
and signals send exactly once. -/
theorem c2_dispatcher_response {E : RegexEngine} (parseUrl : String → Url)
    (h : RestRequestHandler E) (req : SessionRequest) :
    ((parseUrl req.url).valid = false →
      (HandleSession parseUrl h req).1.code = 400 ∧
      ∀ h' : RestRequestHandler E,
        HandleSession parseUrl h' req = HandleSession parseUrl h req) ∧
    ((parseUrl req.url).valid = true →
      (h.service_manager.GetService (parseUrl req.url).path []).1 = none →
      (HandleSession parseUrl h req).1.code = 400) ∧
    (∀ service : RestService, (parseUrl req.url).valid = true →
      (h.service_manager.GetService (parseUrl req.url).path []).1 =
        some service →
      (HandleSession parseUrl h req).1.code = 200 ∧
      (HandleSession parseUrl h req).2 =
        [SessionEvent.setStatus .kOK,
         SessionEvent.setContent kTextJsonUtf8
           (service.Handle req.method req.content).2.length
           (service.Handle req.method req.content).2,
         SessionEvent.send]) ∧
    (((HandleSession parseUrl h req).2.countP
        (fun e => e.isSend)) = 1 ∧
     ((HandleSession parseUrl h req).2.countP
        (fun e => e.isSetStatus)) = 1) := by
  refine ⟨?_, ?_, ?_, ?_⟩
  · intro hv
    constructor
    · simp [HandleSession, hv, HttpStatus.code]
    · intro h'
      simp [HandleSession, hv]
  · intro hv hg
    simp [HandleSession, hv, hg, HttpStatus.code]
  · intro service hv hg
    simp [HandleSession, hv, hg, HttpStatus.code]
  · by_cases hv : (parseUrl req.url).valid
    · cases hg : (h.service_manager.GetService (parseUrl req.url).path []).1 with
      | none =>
        simp [HandleSession, hv, hg, SessionEvent.isSend,
              SessionEvent.isSetStatus]
      | some service =>
        simp [HandleSession, hv, hg, SessionEvent.isSend,
              SessionEvent.isSetStatus]
    · simp only [Bool.not_eq_true] at hv
      simp [HandleSession, hv, SessionEvent.isSend, SessionEvent.isSetStatus]

/-- C2 witness: with the concrete URL utility and the routing table
`[pattern "a" ↦ testService]`, the target `"bad"` (invalid URL) yields 400
and the target `"good"` (valid, path `"a"`) yields 200. -/
theorem c2_witness :
    (HandleSession testParseUrl testHandler ⟨"bad", "GET", "X"⟩).1.code = 400 ∧
    (HandleSession testParseUrl testHandler ⟨"good", "GET", "X"⟩).1.code =
      200 :=
  ⟨((c2_dispatcher_response testParseUrl testHandler
      ⟨"bad", "GET", "X"⟩).1 rfl).1,
   ((c2_dispatcher_response testParseUrl testHandler
      ⟨"good", "GET", "X"⟩).2.2.1 testService rfl rfl).1⟩

/-- C10 witness: matching `"z"` against the registry `[pattern "b" ↦ 10]`
finds nothing and returns the input vector `["keep"]` unchanged. -/
theorem c10_witness :
    testMgrB.GetService "z" ["keep"] = (none, ["keep"]) :=
  (c10_submatch_frame (α := Nat) (E := TestEngine)).1 testMgrB "z" ["keep"]
    (by
      intro it hit
      have h : it = itemB := List.mem_singleton.mp hit
      subst h
      rfl)

end Csoap

namespace Webcc

/-! Helper lemmas about the client engine's teardown and read loop. -/

/-- After `Stop`, the stop flag is set. -/
theorem Stop_stopped (s : HttpClientBase) : s.Stop.stopped = true := by
  unfold HttpClientBase.Stop
  split <;> simp_all

/-- `Stop` on a running engine closes the socket and cancels the timer. -/
theorem Stop_not_stopped (s : HttpClientBase) (h : s.stopped = false) :
    s.Stop = { s with stopped := true, socket_open := false,
                      close_count := s.close_count + 1,
                      cancel_count := s.cancel_count + 1 } := by
  unfold HttpClientBase.Stop
  simp [h]

/-- `Stop` on an already-stopped engine changes nothing. -/
theorem Stop_already (s : HttpClientBase) (h : s.stopped = true) :
    s.Stop = s := by
  unfold HttpClientBase.Stop
  simp [h]

/-- Master induction over the read-phase drive loop: a completed loop ends
stopped with the socket closed, performed the teardown exactly once if the
engine entered running, reports one of the read-phase error kinds, touches
neither the phase log nor the buffer size, and sets the timed-out flag
exactly when a deadline expiry was processed in the consumed prefix. -/
theorem driveRead_main (evts : List IoEvent) :
    ∀ (s : HttpClientBase) (e : Error) (s' : HttpClientBase) (e' : Error)
      (rest : List IoEvent), ReadInv s →
    driveRead s e evts = some (s', e', rest) →
    s'.stopped = true ∧ s'.socket_open = false ∧
    s'.cancel_count = s.cancel_count + (if s.stopped then 0 else 1) ∧
    s'.close_count = s.close_count + (if s.stopped then 0 else 1) ∧
    s'.phases = s.phases ∧ s'.buffer_size = s.buffer_size ∧
    (e' = Error.kSocketReadError ∨ e' = Error.kHttpError ∨
      e' = Error.kNoError) ∧
    ∃ pre, evts = pre ++ rest ∧
      (s'.timed_out = true ↔
        (s.timed_out = true ∨ IoEvent.deadlinePassed ∈ pre)) := by
  induction evts with
  | nil =>
    intro s e s' e' rest _ h
    simp [driveRead] at h
  | cons ev evts ih =>
    intro s e s' e' rest hinv h
    obtain ⟨hso, hto⟩ := hinv
    cases ev with
    | deadlinePassed =>
      rw [driveRead] at h
      by_cases hst : s.stopped = true
      · have htot : s.timed_out = true := by rw [← hto]; exact hst
        have hod : s.OnDeadline true = s := by
          simp [HttpClientBase.OnDeadline, hst]
        rw [hod] at h
        obtain ⟨h1, h2, h3, h4, h5, h6, h7, pre, hpre, hiff⟩ :=
          ih s e s' e' rest ⟨hso, hto⟩ h
        refine ⟨h1, h2, h3, h4, h5, h6, h7,
          IoEvent.deadlinePassed :: pre, by simp [hpre], ?_⟩
        simp [htot] at hiff ⊢
        exact hiff
      · have hst' : s.stopped = false := by simpa using hst
        have hsot : s.socket_open = true := by
          cases hq : s.socket_open
          · rw [hq] at hso; rw [hst'] at hso; simp at hso
          · rfl
        have hod : s.OnDeadline true =
            { s with stopped := true, timed_out := true, socket_open := false,
                     close_count := s.close_count + 1,
                     cancel_count := s.cancel_count + 1 } := by
          rw [HttpClientBase.OnDeadline, if_neg (by simp [hst']), if_pos rfl,
            Stop_not_stopped _ (by simp [hst'])]
        rw [hod] at h
        obtain ⟨h1, h2, h3, h4, h5, h6, h7, pre, hpre, hiff⟩ :=
          ih _ e s' e' rest ⟨by simp, by simp⟩ h
        simp only [if_pos rfl] at h3 h4
        refine ⟨h1, h2, by simp [hst', h3], by simp [hst', h4], h5, h6, h7,
          IoEvent.deadlinePassed :: pre, by simp [hpre], ?_⟩
        simp at hiff
        simp [hiff]
    | deadlineSpurious =>
      rw [driveRead] at h
      have hod : s.OnDeadline false = s := by
        unfold HttpClientBase.OnDeadline
        split <;> rfl
      rw [hod] at h
      obtain ⟨h1, h2, h3, h4, h5, h6, h7, pre, hpre, hiff⟩ :=
        ih s e s' e' rest ⟨hso, hto⟩ h
      refine ⟨h1, h2, h3, h4, h5, h6, h7,
        IoEvent.deadlineSpurious :: pre, by simp [hpre], ?_⟩
      simpa using hiff
    | readDone err len parseOk finished =>
      rw [driveRead] at h
      cases hsock : s.socket_open with
      | false =>
        have hst : s.stopped = true := by rw [hso, hsock]; rfl
        have htot : s.timed_out = true := by rw [← hto]; exact hst
        rw [if_pos (by simp [hsock])] at h
        simp only [Option.some.injEq, Prod.mk.injEq] at h
        obtain ⟨h1, h2, h3⟩ := h
        subst h1; subst h2; subst h3
        rw [Stop_already s hst]
        refine ⟨hst, hsock, by simp [hst], by simp [hst], rfl, rfl,
          Or.inl rfl,
          [IoEvent.readDone err len parseOk finished], by simp, ?_⟩
        simp [htot]
      | true =>
        have hst : s.stopped = false := by rw [hso, hsock]; rfl
        have htof : s.timed_out = false := by rw [← hto]; exact hst
        by_cases hel : (err || len == 0) = true
        · rw [if_pos (by simp [hsock]; simpa using hel)] at h
          simp only [Option.some.injEq, Prod.mk.injEq] at h
          obtain ⟨h1, h2, h3⟩ := h
          subst h1; subst h2; subst h3
          rw [Stop_not_stopped s hst]
          refine ⟨rfl, rfl, by simp [hst], by simp [hst], rfl, rfl,
            Or.inl rfl,
            [IoEvent.readDone err len parseOk finished], by simp, ?_⟩
          simp [htof]
        · have hel' : (err || len == 0) = false := by simpa using hel
          have herr : err = false := by
            cases herr0 : err
            · rfl
            · rw [herr0] at hel'; simp at hel'
          have hlen : (len == 0) = false := by
            cases hlen0 : (len == 0)
            · rfl
            · rw [hlen0] at hel'; simp at hel'
          rw [if_neg (by simp [hsock, herr, hlen])] at h
          by_cases hp : parseOk = true
          · subst hp
            by_cases hf : finished = true
            · subst hf
              rw [if_neg (by simp), if_pos rfl] at h
              simp only [Option.some.injEq, Prod.mk.injEq] at h
              obtain ⟨h1, h2, h3⟩ := h
              subst h1; subst h2; subst h3
              rw [Stop_not_stopped _ (by simp [hst])]
              refine ⟨rfl, rfl, by simp [hst], by simp [hst], rfl, rfl,
                Or.inr (Or.inr rfl),
                [IoEvent.readDone err len true true], by simp, ?_⟩
              simp [htof]
            · have hf' : finished = false := by simpa using hf
              subst hf'
              rw [if_neg (by simp), if_neg (by simp),
                if_pos (by simp [hst])] at h
              obtain ⟨h1, h2, h3, h4, h5, h6, h7, pre, hpre, hiff⟩ :=
                ih _ e s' e' rest ⟨by simp [hso], by simp [hst, htof]⟩ h
              refine ⟨h1, h2, by simp [hst] at h3 ⊢; simpa using h3,
                by simp [hst] at h4 ⊢; simpa using h4,
                h5, h6, h7,
                IoEvent.readDone err len true false :: pre,
                by simp [hpre], ?_⟩
              simp [htof] at hiff ⊢
              simpa using hiff
          · have hp' : parseOk = false := by simpa using hp
            subst hp'
            rw [if_pos (by simp)] at h
            simp only [Option.some.injEq, Prod.mk.injEq] at h
            obtain ⟨h1, h2, h3⟩ := h
            subst h1; subst h2; subst h3
            rw [Stop_not_stopped _ (by simp [hst])]
            refine ⟨rfl, rfl, by simp [hst], by simp [hst], rfl, rfl,
              Or.inr (Or.inl rfl),
              [IoEvent.readDone err len false finished], by simp, ?_⟩
            simp [htof]

/-- A `Request` whose first three phases succeed reduces to the drive loop
run from `readPhaseState`, when the loop reaches a terminal outcome. -/
theorem Request_read_phase_some (s0 : HttpClientBase) (n : Nat)
    (env : ClientEnv) (s4 : HttpClientBase) (e3 : Error) (rest : List IoEvent)
    (hres : env.resolve_ok = true) (hcon : env.connect_ok = true)
    (hwr : env.write_ok = true)
    (hdr : driveRead (readPhaseState s0 n) Error.kNoError env.events =
      some (s4, e3, rest)) :
    Request s0 n env =
      if e3 = Error.kNoError then
        some (true, bufferRestore { s4 with error := e3 } s0.buffer_size)
      else some (false, bufferRestore { s4 with error := e3 } s0.buffer_size) := by
  by_cases hn : n = 0 <;> by_cases he : e3 = Error.kNoError <;>
    simp [readPhaseState, hn] at hdr <;>
    simp [Request, DoConnect, SendReqeust, ReadResponse, requestReset,
      bufferResize, bufferRestore, hres, hcon, hwr, hn, he, hdr]

/-- A `Request` whose first three phases succeed returns nothing when the
drive loop's event stream is exhausted without a terminal outcome. -/
theorem Request_read_phase_none (s0 : HttpClientBase) (n : Nat)
    (env : ClientEnv)
    (hres : env.resolve_ok = true) (hcon : env.connect_ok = true)
    (hwr : env.write_ok = true)
    (hdr : driveRead (readPhaseState s0 n) Error.kNoError env.events = none) :
    Request s0 n env = none := by
  by_cases hn : n = 0 <;>
    simp [readPhaseState, hn] at hdr <;>
    simp [Request, DoConnect, SendReqeust, ReadResponse, requestReset,
      bufferResize, bufferRestore, hres, hcon, hwr, hn, hdr]

/-- Combined description of any completed `Request` call whose connect,
send and read phases were all entered. -/
theorem Request_some_props (s0 : HttpClientBase) (n : Nat) (env : ClientEnv)
    (ok : Bool) (s' : HttpClientBase)
    (hres : env.resolve_ok = true) (hcon : env.connect_ok = true)
    (hwr : env.write_ok = true)
    (h : Request s0 n env = some (ok, s')) :
    ∃ s4 e3 rest pre,
      driveRead (readPhaseState s0 n) Error.kNoError env.events =
        some (s4, e3, rest) ∧
      s' = bufferRestore { s4 with error := e3 } s0.buffer_size ∧
      (ok = true ↔ e3 = Error.kNoError) ∧
      s4.stopped = true ∧ s4.socket_open = false ∧
      s4.cancel_count = s0.cancel_count + 1 ∧
      s4.close_count = s0.close_count + 1 ∧
      s4.phases = [Phase.connect, Phase.send, Phase.read] ∧
      (e3 = Error.kSocketReadError ∨ e3 = Error.kHttpError ∨
        e3 = Error.kNoError) ∧
      env.events = pre ++ rest ∧
      (s4.timed_out = true ↔ IoEvent.deadlinePassed ∈ pre) := by
  cases hdr : driveRead (readPhaseState s0 n) Error.kNoError env.events with
  | none =>
    rw [Request_read_phase_none s0 n env hres hcon hwr hdr] at h
    exact Option.noConfusion h
  | some t =>
    obtain ⟨s4, e3, rest⟩ := t
    rw [Request_read_phase_some s0 n env s4 e3 rest hres hcon hwr hdr] at h
    have hinv : ReadInv (readPhaseState s0 n) := by
      simp [ReadInv, readPhaseState]
    obtain ⟨h1, h2, h3, h4, h5, h6, h7, pre, hpre, hiff⟩ :=
      driveRead_main env.events (readPhaseState s0 n) Error.kNoError s4 e3
        rest hinv hdr
    have hokiff : (ok = true ↔ e3 = Error.kNoError) ∧
        s' = bufferRestore { s4 with error := e3 } s0.buffer_size := by
      by_cases he : e3 = Error.kNoError
      · subst he; simp at h; exact ⟨by simp [h.1.symm], h.2.symm⟩
      · simp [he] at h
        exact ⟨by simp [h.1.symm, he], h.2.symm⟩
    refine ⟨s4, e3, rest, pre, rfl, hokiff.2, hokiff.1, h1, h2, ?_, ?_,
      ?_, h7, hpre, ?_⟩
    · simpa [readPhaseState] using h3
    · simpa [readPhaseState] using h4
    · simpa [readPhaseState] using h5
    · simpa [readPhaseState] using hiff

end Webcc

namespace Webcc

/-- C5: the phases run in order connect, send, read; the first failing phase
makes `Request` return `false` with the error state set to that phase's
error kind and no later phase entered; for a call that reaches the read
phase, the error is one of the read-phase kinds; `Request` returns `true`
if and only if the recorded error is `kNoError`, i.e. all phases report no
error. -/
theorem c5_phase_order (s0 : HttpClientBase) (n : Nat) (env : ClientEnv) :
    (∀ (ok : Bool) (s' : HttpClientBase), env.resolve_ok = false →
      Request s0 n env = some (ok, s') →
      ok = false ∧ s'.error = Error.kHostResolveError ∧
      s'.phases = [Phase.connect]) ∧
    (∀ (ok : Bool) (s' : HttpClientBase), env.resolve_ok = true →
      env.connect_ok = false →
      Request s0 n env = some (ok, s') →
      ok = false ∧ s'.error = Error.kEndpointConnectError ∧
      s'.phases = [Phase.connect] ∧ s'.stopped = true) ∧
    (∀ (ok : Bool) (s' : HttpClientBase), env.resolve_ok = true →
      env.connect_ok = true → env.write_ok = false →
      Request s0 n env = some (ok, s') →
      ok = false ∧ s'.error = Error.kSocketWriteError ∧
      s'.phases = [Phase.connect, Phase.send] ∧ s'.stopped = true) ∧
    (∀ (ok : Bool) (s' : HttpClientBase), env.resolve_ok = true →
      env.connect_ok = true → env.write_ok = true →
      Request s0 n env = some (ok, s') →
      s'.phases = [Phase.connect, Phase.send, Phase.read] ∧
      (s'.error = Error.kSocketReadError ∨ s'.error = Error.kHttpError ∨
        s'.error = Error.kNoError)) ∧
    (∀ (ok : Bool) (s' : HttpClientBase), Request s0 n env = some (ok, s') →
      (ok = true ↔ s'.error = Error.kNoError)) := by
  refine ⟨?_, ?_, ?_, ?_, ?_⟩
  · intro ok s' hres h
    by_cases hn : n = 0 <;>
      simp [Request, DoConnect, requestReset, bufferResize, bufferRestore,
        hres, hn] at h <;>
      obtain ⟨h1, h2⟩ := h <;> subst h2 <;> simp [h1, hn]
  · intro ok s' hres hcon h
    by_cases hn : n = 0 <;>
      simp [Request, DoConnect, requestReset, bufferResize, bufferRestore,
        HttpClientBase.Stop, hres, hcon, hn] at h <;>
      obtain ⟨h1, h2⟩ := h <;> subst h2 <;> simp [h1, hn]
  · intro ok s' hres hcon hwr h
    by_cases hn : n = 0 <;>
      simp [Request, DoConnect, SendReqeust, requestReset, bufferResize,
        bufferRestore, HttpClientBase.Stop, hres, hcon, hwr, hn] at h <;>
      obtain ⟨h1, h2⟩ := h <;> subst h2 <;> simp [h1, hn]
  · intro ok s' hres hcon hwr h
    obtain ⟨s4, e3, rest, pre, hdr, hs', hok, h1, h2, h3, h4, h5, h7, hpre,
      hiff⟩ := Request_some_props s0 n env ok s' hres hcon hwr h
    subst hs'
    refine ⟨by simpa [bufferRestore] using h5, ?_⟩
    simpa [bufferRestore] using h7
  · intro ok s' h
    by_cases hres : env.resolve_ok = true
    · by_cases hcon : env.connect_ok = true
      · by_cases hwr : env.write_ok = true
        · obtain ⟨s4, e3, rest, pre, hdr, hs', hok, h1, h2, h3, h4, h5, h7,
            hpre, hiff⟩ := Request_some_props s0 n env ok s' hres hcon hwr h
          subst hs'
          simpa [bufferRestore] using hok
        · have hwr' : env.write_ok = false := by simpa using hwr
          by_cases hn : n = 0 <;>
            simp [Request, DoConnect, SendReqeust, requestReset, bufferResize,
              bufferRestore, HttpClientBase.Stop, hres, hcon, hwr', hn] at h <;>
            obtain ⟨h1, h2⟩ := h <;> subst h2 <;> simp [h1, hn]
      · have hcon' : env.connect_ok = false := by simpa using hcon
        by_cases hn : n = 0 <;>
          simp [Request, DoConnect, requestReset, bufferResize, bufferRestore,
            HttpClientBase.Stop, hres, hcon', hn] at h <;>
          obtain ⟨h1, h2⟩ := h <;> subst h2 <;> simp [h1, hn]
    · have hres' : env.resolve_ok = false := by simpa using hres
      by_cases hn : n = 0 <;>
        simp [Request, DoConnect, requestReset, bufferResize, bufferRestore,
          hres', hn] at h <;>
        obtain ⟨h1, h2⟩ := h <;> subst h2 <;> simp [h1, hn]

/-- C5 witness: host-resolution failure yields `kHostResolveError` with only
the connect phase entered; the all-success one-chunk run enters all three
phases and returns `true` with `kNoError`. -/
theorem c5_witness :
    (false = false ∧ badHostFinal.error = Error.kHostResolveError ∧
      badHostFinal.phases = [Phase.connect]) ∧
    (testFinal.phases = [Phase.connect, Phase.send, Phase.read] ∧
      (testFinal.error = Error.kSocketReadError ∨
        testFinal.error = Error.kHttpError ∨
        testFinal.error = Error.kNoError)) ∧
    (true = true ↔ testFinal.error = Error.kNoError) :=
  ⟨(c5_phase_order testState 0 envBadHost).1 false badHostFinal rfl
      (by decide),
   (c5_phase_order testState 4 envOneChunk).2.2.2.1 true testFinal rfl rfl
      rfl (by decide),
   (c5_phase_order testState 4 envOneChunk).2.2.2.2 true testFinal
      (by decide)⟩

/-- C6: for a call that enters the read phase, the timed-out flag is set
after `Request` returns exactly when a deadline expiry was dispatched in the
consumed event prefix; a peer that never responds (deadline fires, then the
cancelled read completes) makes `Request` return `false` with timed-out set;
a complete well-formed response in one read makes `Request` return `true`
with the response populated, no error, and timed-out `false`. -/
theorem c6_timed_out_iff (s0 : HttpClientBase) (n : Nat) (env : ClientEnv) :
    (∀ (ok : Bool) (s' : HttpClientBase), env.resolve_ok = true →
      env.connect_ok = true → env.write_ok = true →
      Request s0 n env = some (ok, s') →
      ∃ pre rest, env.events = pre ++ rest ∧
        (s'.timed_out = true ↔ IoEvent.deadlinePassed ∈ pre)) ∧
    (∀ (e : Bool) (l : Nat) (p f : Bool) (tail : List IoEvent)
        (ok : Bool) (s' : HttpClientBase), env.resolve_ok = true →
      env.connect_ok = true → env.write_ok = true →
      env.events =
        IoEvent.deadlinePassed :: IoEvent.readDone e l p f :: tail →
      Request s0 n env = some (ok, s') →
      ok = false ∧ s'.timed_out = true ∧
        s'.error = Error.kSocketReadError) ∧
    (∀ (l : Nat) (ok : Bool) (s' : HttpClientBase), l ≠ 0 →
      env.resolve_ok = true → env.connect_ok = true → env.write_ok = true →
      env.events = [IoEvent.readDone false l true true] →
      Request s0 n env = some (ok, s') →
      ok = true ∧ s'.timed_out = false ∧ s'.error = Error.kNoError ∧
      s'.response = [min l (readPhaseState s0 n).buffer_size] ∧
      s'.stopped = true) := by
  refine ⟨?_, ?_, ?_⟩
  · intro ok s' hres hcon hwr h
    obtain ⟨s4, e3, rest, pre, hdr, hs', hok, h1, h2, h3, h4, h5, h7, hpre,
      hiff⟩ := Request_some_props s0 n env ok s' hres hcon hwr h
    subst hs'
    exact ⟨pre, rest, hpre, by simpa [bufferRestore] using hiff⟩
  · intro e l p f tail ok s' hres hcon hwr hev h
    have hdr : driveRead (readPhaseState s0 n) Error.kNoError env.events =
        some (({ readPhaseState s0 n with
                 stopped := true,
                 timed_out := true,
                 socket_open := false,
                 close_count := s0.close_count + 1,
                 cancel_count := s0.cancel_count + 1 } : HttpClientBase),
          Error.kSocketReadError, tail) := by
      rw [hev]
      simp [driveRead, HttpClientBase.OnDeadline, HttpClientBase.Stop,
        readPhaseState]
    rw [Request_read_phase_some s0 n env _ _ tail hres hcon hwr hdr,
      if_neg (by decide : ¬(Error.kSocketReadError = Error.kNoError))] at h
    have h' := Option.some.inj h
    rw [Prod.mk.injEq] at h'
    obtain ⟨hok, hX⟩ := h'
    subst hX
    refine ⟨hok.symm, ?_, ?_⟩ <;> simp [bufferRestore, readPhaseState]
  · intro l ok s' hl hres hcon hwr hev h
    have hl' : (l == 0) = false := by simp [hl]
    have hdr : driveRead (readPhaseState s0 n) Error.kNoError env.events =
        some (({ readPhaseState s0 n with
                 stopped := true,
                 socket_open := false,
                 close_count := s0.close_count + 1,
                 cancel_count := s0.cancel_count + 1,
                 response := [min l (readPhaseState s0 n).buffer_size] } :
            HttpClientBase),
          Error.kNoError, []) := by
      rw [hev]
      simp [driveRead, HttpClientBase.Stop, readPhaseState, hl']
    rw [Request_read_phase_some s0 n env _ _ [] hres hcon hwr hdr,
      if_pos rfl] at h
    have h' := Option.some.inj h
    rw [Prod.mk.injEq] at h'
    obtain ⟨hok, hX⟩ := h'
    subst hX
    refine ⟨hok.symm, ?_, ?_, ?_, ?_⟩ <;>
      simp [bufferRestore, readPhaseState]

/-- C6 witness: the no-answer run returns failure with timed-out set and a
read error; the one-chunk run returns success with timed-out clear and the
3-byte chunk recorded. -/
theorem c6_witness :
    (false = false ∧ noAnswerFinal.timed_out = true ∧
      noAnswerFinal.error = Error.kSocketReadError) ∧
    (true = true ∧ testFinal.timed_out = false ∧
      testFinal.error = Error.kNoError ∧
      testFinal.response = [min 3 (readPhaseState testState 4).buffer_size] ∧
      testFinal.stopped = true) :=
  ⟨(c6_timed_out_iff testState 0 envNoAnswer).2.1 false 0 true false []
      false noAnswerFinal rfl rfl rfl rfl (by decide),
   (c6_timed_out_iff testState 4 envOneChunk).2.2 3 true testFinal
      (by decide) rfl rfl rfl rfl (by decide)⟩

/-- C7: `Stop` is idempotent: from any state with the stop flag already set,
invoking `Stop` again is a no-op (it closes no socket, cancels no timer and
changes no field), and `Stop` after `Stop` equals a single `Stop`. -/
theorem c7_stop_idempotent (s : HttpClientBase) :
    (s.stopped = true → s.Stop = s) ∧ s.Stop.Stop = s.Stop :=
  ⟨Stop_already s, Stop_already s.Stop (Stop_stopped s)⟩

/-- C7 witness: `Stop` on a concrete already-stopped state is the identity. -/
theorem c7_witness : HttpClientBase.Stop stoppedState = stoppedState :=
  (c7_stop_idempotent stoppedState).1 rfl

/-- C8: `Request` starts by resetting all per-invocation state as if newly
constructed (stop flag, timed-out flag, error code, response accumulator
and parser, phase log of the restarted execution context), a non-zero
buffer-size override resizes the working buffer for the call, and on every
completed `Request` the buffer is back at its size from before the call. -/
theorem c8_reset_and_scoped_resize (s0 : HttpClientBase) (n : Nat)
    (env : ClientEnv) :
    ((requestReset s0).stopped = false ∧
     (requestReset s0).timed_out = false ∧
     (requestReset s0).error = Error.kNoError ∧
     (requestReset s0).response = [] ∧ (requestReset s0).phases = []) ∧
    (n ≠ 0 → (bufferResize (requestReset s0) n).buffer_size = n) ∧
    (∀ (ok : Bool) (s' : HttpClientBase), Request s0 n env = some (ok, s') →
      s'.buffer_size = s0.buffer_size) := by
  refine ⟨⟨rfl, rfl, rfl, rfl, rfl⟩, ?_, ?_⟩
  · intro hn
    simp [bufferResize, hn]
  · intro ok s' h
    simp only [Request] at h
    split at h
    · have h' := Option.some.inj h
      rw [Prod.mk.injEq] at h'
      obtain ⟨-, hX⟩ := h'
      subst hX
      rfl
    · split at h
      · have h' := Option.some.inj h
        rw [Prod.mk.injEq] at h'
        obtain ⟨-, hX⟩ := h'
        subst hX
        rfl
      · split at h
        · exact Option.noConfusion h
        · split at h
          · have h' := Option.some.inj h
            rw [Prod.mk.injEq] at h'
            obtain ⟨-, hX⟩ := h'
            subst hX
            rfl
          · have h' := Option.some.inj h
            rw [Prod.mk.injEq] at h'
            obtain ⟨-, hX⟩ := h'
            subst hX
            rfl

/-- C8 witness: the override 4 resizes the working buffer to 4 for the call,
and the completed one-chunk `Request` hands the buffer back at its original
size 8. -/
theorem c8_witness :
    (bufferResize (requestReset testState) 4).buffer_size = 4 ∧
    testFinal.buffer_size = testState.buffer_size :=
  ⟨(c8_reset_and_scoped_resize testState 4 envOneChunk).2.1 (by decide),
   (c8_reset_and_scoped_resize testState 4 envOneChunk).2.2 true testFinal
     (by decide)⟩

/-- C9: every completed `Request` that entered the read phase ends with the
stop flag set, the socket closed and the deadline timer cancelled — the
teardown ran exactly once (close and cancel counters each advanced by
exactly one). -/
theorem c9_read_teardown (s0 : HttpClientBase) (n : Nat) (env : ClientEnv) :
    ∀ (ok : Bool) (s' : HttpClientBase), env.resolve_ok = true →
      env.connect_ok = true → env.write_ok = true →
      Request s0 n env = some (ok, s') →
      s'.stopped = true ∧ s'.socket_open = false ∧
      s'.close_count = s0.close_count + 1 ∧
      s'.cancel_count = s0.cancel_count + 1 := by
  intro ok s' hres hcon hwr h
  obtain ⟨s4, e3, rest, pre, hdr, hs', hok, h1, h2, h3, h4, h5, h7, hpre,
    hiff⟩ := Request_some_props s0 n env ok s' hres hcon hwr h
  subst hs'
  simp only [bufferRestore]
  exact ⟨h1, h2, h4, h3⟩

/-- C9 witness: after the completed one-chunk `Request`, the engine is
stopped, the socket closed, and both teardown counters advanced by one. -/
theorem c9_witness :
    testFinal.stopped = true ∧ testFinal.socket_open = false ∧
      testFinal.close_count = testState.close_count + 1 ∧
      testFinal.cancel_count = testState.cancel_count + 1 :=
  c9_read_teardown testState 4 envOneChunk true testFinal rfl rfl rfl
    (by decide)

end Webcc
